import Mathlib

/-!
# Verification of the `verbosity` crate (Nejat/verbosity-rs)

A shallow embedding of `src/verbosity.rs`.  The crate holds one process-wide
verbosity level guarded by a set-once latch:

* `enum Verbosity { Quite = 0, Terse = 1, Verbose = 2 }` with derived
  `Ord`/`PartialOrd` (comparison of discriminants);
* `Display` / `FromStr` mapping levels to the canonical lowercase strings;
* two globals, `REPORTING : RwLock<Verbosity>` (initially `Quite`) and
  `REPORTING_SET : AtomicBool` (initially `false`);
* `set_as_global` performing `compare_exchange(false, true)` on the latch and
  writing `REPORTING` only when the prior latch value was `false`;
* readers `level`, `is_quite`, `is_terse`, `is_verbose` and the test-only
  backdoor `set_as_global_for_test` that writes `REPORTING` unconditionally.

The global state is embedded as an explicit record `RegState` threaded through
the operations; the concurrent behaviour of `set_as_global` is embedded as an
interleaving semantics over per-thread program counters further below.
-/

/-- The three verbosity variants, with the source's (mis)spelling `Quite`.
Discriminants in the source are `Quite = 0`, `Terse = 1`, `Verbose = 2`. -/
inductive Verbosity where
  | Quite
  | Terse
  | Verbose
deriving DecidableEq, Repr

/-- Rust discriminant of each variant (`Quite = 0, Terse = 1, Verbose = 2`). -/
def Verbosity.discriminant : Verbosity → Nat
  | .Quite => 0
  | .Terse => 1
  | .Verbose => 2

/-- The derived `PartialOrd`/`Ord` strict comparison on a fieldless Rust enum
compares discriminants. -/
def Verbosity.lt (a b : Verbosity) : Bool :=
  a.discriminant < b.discriminant

/-- The derived non-strict comparison on discriminants. -/
def Verbosity.le (a b : Verbosity) : Bool :=
  a.discriminant ≤ b.discriminant

/-- Rust `Display for Verbosity`: `Terse ↦ "terse"`, `Verbose ↦ "verbose"`,
`Quite ↦ "quite"` (the order of the match arms in the source). -/
def Verbosity.fmt : Verbosity → String
  | .Terse => "terse"
  | .Verbose => "verbose"
  | .Quite => "quite"

/-- One character of Rust's `Debug` escaping for `str` (`{:?}`): the escapes
that can occur in the inputs considered here (quote, backslash and the common
control characters); other printable characters are kept verbatim. -/
def rustEscapeChar (c : Char) : String :=
  if c = '"' then "\\\""
  else if c = '\\' then "\\\\"
  else if c = '\n' then "\\n"
  else if c = '\r' then "\\r"
  else if c = '\t' then "\\t"
  else String.singleton c

/-- Rust `format!("{:?}", s)` for a string slice: the text surrounded by
double quotes, with its characters `Debug`-escaped. -/
def rustDebugStr (s : String) : String :=
  "\"" ++ String.join (s.toList.map rustEscapeChar) ++ "\""

/-- Rust `FromStr for Verbosity`: exact match against the three canonical strings,
otherwise `Err(format!("{:?} is not a valid verbosity", source))`. -/
def Verbosity.from_str (source : String) : Except String Verbosity :=
  if source = "terse" then .ok .Terse
  else if source = "verbose" then .ok .Verbose
  else if source = "quite" then .ok .Quite
  else .error (rustDebugStr source ++ " is not a valid verbosity")

/-- The two globals of `verbosity.rs`: `REPORTING : RwLock<Verbosity>` and
`REPORTING_SET : AtomicBool`. -/
structure RegState where
  reporting : Verbosity
  reportingSet : Bool
deriving DecidableEq, Repr

/-- Initial global state: `REPORTING = Quite`, `REPORTING_SET = false`
(the `lazy_static` initializers). -/
def initState : RegState :=
  { reporting := .Quite, reportingSet := false }

/-- Reader `Verbosity::level()`: `*REPORTING.read()`. -/
def Verbosity.level (s : RegState) : Verbosity :=
  s.reporting

/-- Reader `Verbosity::is_quite()`: `*REPORTING.read() == Self::Quite`. -/
def Verbosity.is_quite (s : RegState) : Bool :=
  s.reporting = Verbosity.Quite

/-- Reader `Verbosity::is_terse()`: `*REPORTING.read() != Self::Quite`. -/
def Verbosity.is_terse (s : RegState) : Bool :=
  s.reporting ≠ Verbosity.Quite

/-- Reader `Verbosity::is_verbose()`: `*REPORTING.read() == Self::Verbose`. -/
def Verbosity.is_verbose (s : RegState) : Bool :=
  s.reporting = Verbosity.Verbose

/-- Writer `Verbosity::set_as_global(self)`: `compare_exchange(false, true)` on
`REPORTING_SET` yields the prior latch value (`Ok(set) | Err(set) => set`) and
leaves the latch `true` in either case; the level is written only when the
prior value was `false`. -/
def Verbosity.set_as_global (v : Verbosity) (s : RegState) : RegState :=
  let set := s.reportingSet
  if !set then { reporting := v, reportingSet := true }
  else { s with reportingSet := true }

/-- Backdoor `Verbosity::set_as_global_for_test(self)` (test-only):
`*REPORTING.write() = self`, the latch untouched. -/
def Verbosity.set_as_global_for_test (v : Verbosity) (s : RegState) : RegState :=
  { s with reporting := v }

/-- Fold a list of `set_as_global` calls over a state, first call first. -/
def runSets (s : RegState) (calls : List Verbosity) : RegState :=
  calls.foldl (fun st v => Verbosity.set_as_global v st) s

/-!
## Interleaving semantics for concurrent `set_as_global`

A thread executing `set_as_global(value)` performs two atomic actions from
the source: the `compare_exchange(false, true, SeqCst, SeqCst)` on
`REPORTING_SET` (program counter `0`), then, only when the prior latch value
was `false`, the guarded write `*REPORTING.write() = self` (program counter
`1`); afterwards it is done (program counter `2`).  A schedule is a list of
thread indices; at each schedule entry the named thread takes its next
atomic action.  This models every interleaving of the two sequentially
consistent actions across any number of threads.
-/

/-- A thread running `set_as_global`: its argument, its program counter and
the prior latch value its `compare_exchange` returned (`won = !set`). -/
structure ThreadState where
  value : Verbosity
  pc : Nat
  won : Bool
deriving DecidableEq, Repr

/-- A thread about to call `set_as_global v`. -/
def initThread (v : Verbosity) : ThreadState :=
  { value := v, pc := 0, won := false }

/-- The global registers together with the local state of every thread. -/
structure RaceConfig where
  global : RegState
  threads : List ThreadState
deriving DecidableEq, Repr

/-- Fresh registry and one thread per requested level. -/
def initConfig (vs : List Verbosity) : RaceConfig :=
  { global := initState, threads := vs.map initThread }

/-- One atomic action of one thread.  `pc = 0`: the `compare_exchange`,
which leaves the latch `true` and remembers the prior value; `pc = 1`: the
guarded write, performed only when the prior latch value was `false`;
otherwise the thread is done and does nothing. -/
def stepThread (g : RegState) (t : ThreadState) : RegState × ThreadState :=
  if t.pc = 0 then
    let set := g.reportingSet
    ({ g with reportingSet := true }, { t with pc := 1, won := !set })
  else if t.pc = 1 then
    if t.won then ({ g with reporting := t.value }, { t with pc := 2 })
    else (g, { t with pc := 2 })
  else (g, t)

/-- Let thread `i` take its next atomic action (no-op for an index out of
range). -/
def stepConfig (c : RaceConfig) (i : Nat) : RaceConfig :=
  match c.threads[i]? with
  | some t =>
      { global := (stepThread c.global t).1,
        threads := c.threads.set i (stepThread c.global t).2 }
  | none => c

/-- Run a schedule: a list of thread indices, each naming the thread that
takes its next atomic action. -/
def runSched (c : RaceConfig) : List Nat → RaceConfig
  | [] => c
  | i :: rest => runSched (stepConfig c i) rest

/-- The race invariant: the threads' arguments never change and either
nothing has happened yet (latch unset, default level, every thread at the
start), or the latch is set and there is a single winning thread — every
other thread lost its `compare_exchange` — whose guarded write is either
still pending (level still `Quite`) or done (level equal to its argument). -/
def RaceInv (vs : List Verbosity) (c : RaceConfig) : Prop :=
  c.threads.map ThreadState.value = vs ∧
  ((c.global.reportingSet = false ∧ c.global.reporting = Verbosity.Quite ∧
      ∀ t ∈ c.threads, t.pc = 0 ∧ t.won = false) ∨
   (c.global.reportingSet = true ∧
      ∃ (i : Nat) (t : ThreadState), c.threads[i]? = some t ∧ t.won = true ∧
        (∀ (j : Nat) (u : ThreadState),
          c.threads[j]? = some u → j ≠ i → u.won = false) ∧
        ((t.pc = 1 ∧ c.global.reporting = Verbosity.Quite) ∨
         (t.pc = 2 ∧ c.global.reporting = t.value))))

/-- After any `set_as_global` call the latch is `true`. -/
theorem Verbosity.reportingSet_after_set (v : Verbosity) (s : RegState) :
    (Verbosity.set_as_global v s).reportingSet = true := by
  unfold Verbosity.set_as_global
  cases s.reportingSet <;> simp

/-- With the latch already set, `set_as_global` is the identity on the state. -/
theorem Verbosity.set_as_global_latched (w : Verbosity) (s : RegState)
    (h : s.reportingSet = true) : Verbosity.set_as_global w s = s := by
  cases s with
  | mk rep rset => simp_all [Verbosity.set_as_global]

/-- A whole list of later `set_as_global` calls is the identity once the
latch is set. -/
theorem runSets_latched (s : RegState) (calls : List Verbosity)
    (h : s.reportingSet = true) : runSets s calls = s := by
  induction calls with
  | nil => rfl
  | cons c cs ih =>
      unfold runSets at ih ⊢
      simp only [List.foldl_cons, Verbosity.set_as_global_latched c s h]
      exact ih

/-- C1: `set_as_global` is set-once.  The first call on the fresh registry
stores its level; any list of later calls, whatever their levels, leaves the
state (hence `level()`) unchanged, so `set_as_global a; set_as_global b`
leaves `level() = a`; in particular `Verbose` then `Quiet` leaves `Verbose`. -/
theorem set_as_global_set_once :
    (∀ (a : Verbosity) (later : List Verbosity),
        Verbosity.level (runSets (Verbosity.set_as_global a initState) later) = a)
    ∧ Verbosity.level
        (Verbosity.set_as_global .Quite
          (Verbosity.set_as_global .Verbose initState)) = .Verbose := by
  constructor
  · intro a later
    rw [runSets_latched _ _ (Verbosity.reportingSet_after_set a initState)]
    rfl
  · rfl

/-- C2: parse/format round-trip.  Each of the three canonical strings parses
to a level that formats back to exactly that string, and `fmt` is total:
every variant formats to one of the three canonical strings, and parsing the
formatted text recovers the variant. -/
theorem from_str_fmt_round_trip :
    (∀ s ∈ ["quite", "terse", "verbose"],
        ∃ v : Verbosity, Verbosity.from_str s = .ok v ∧ v.fmt = s)
    ∧ (∀ v : Verbosity,
        v.fmt ∈ ["quite", "terse", "verbose"] ∧ Verbosity.from_str v.fmt = .ok v) := by
  constructor
  · intro s hs
    simp only [List.mem_cons, List.mem_singleton] at hs
    rcases hs with h | h | h | h
    · exact ⟨.Quite, by rw [h]; exact ⟨rfl, rfl⟩⟩
    · exact ⟨.Terse, by rw [h]; exact ⟨rfl, rfl⟩⟩
    · exact ⟨.Verbose, by rw [h]; exact ⟨rfl, rfl⟩⟩
    · cases h
  · intro v
    cases v <;> exact ⟨by decide, rfl⟩

/-- Witness for C2 at the concrete string `"terse"` and variant `Terse`. -/
theorem from_str_fmt_round_trip_witness :
    (∃ v : Verbosity, Verbosity.from_str "terse" = .ok v ∧ v.fmt = "terse")
    ∧ Verbosity.from_str (Verbosity.fmt .Terse) = .ok .Terse :=
  ⟨from_str_fmt_round_trip.1 "terse" (by decide),
   (from_str_fmt_round_trip.2 .Terse).2⟩

/-- C3: exact-match rejection.  Any string other than the three canonical
ones fails, with the error message built from the `Debug`-quoted input (so it
carries the rejected text); matching is exact, so `"loud"`, `"Terse"` and
`" terse"` all fail, `"loud"` with the message Rust renders as
`InvalidLevel("loud")`. -/
theorem from_str_rejects :
    (∀ s : String, s ≠ "terse" → s ≠ "verbose" → s ≠ "quite" →
        Verbosity.from_str s = .error (rustDebugStr s ++ " is not a valid verbosity"))
    ∧ Verbosity.from_str "loud" = .error "\"loud\" is not a valid verbosity"
    ∧ Verbosity.from_str "Terse"
        = .error "\"Terse\" is not a valid verbosity"
    ∧ Verbosity.from_str " terse"
        = .error "\" terse\" is not a valid verbosity" := by
  refine ⟨?_, rfl, rfl, rfl⟩
  intro s h1 h2 h3
  unfold Verbosity.from_str
  rw [if_neg h1, if_neg h2, if_neg h3]

/-- Witness for C3 at the concrete input `"loud"`. -/
theorem from_str_rejects_witness :
    Verbosity.from_str "loud"
      = .error (rustDebugStr "loud" ++ " is not a valid verbosity") :=
  from_str_rejects.1 "loud" (by decide) (by decide) (by decide)

/-- C4: the fresh registry reports `level() = Quite`, `is_terse() = false`,
`is_verbose() = false`. -/
theorem fresh_registry_defaults :
    Verbosity.level initState = .Quite
    ∧ Verbosity.is_terse initState = false
    ∧ Verbosity.is_verbose initState = false := by
  refine ⟨rfl, by decide, by decide⟩

/-- C5: predicate consistency.  After `set_as_global v` on the fresh registry,
`is_terse()` is `v ≠ Quite` and `is_verbose()` is `v = Verbose`; and at every
state whatsoever, `is_terse()` agrees with `level() ≠ Quite` and `is_verbose()`
with `level() = Verbose`. -/
theorem predicates_consistent :
    (∀ v : Verbosity,
        Verbosity.is_terse (Verbosity.set_as_global v initState)
          = decide (v ≠ .Quite)
        ∧ Verbosity.is_verbose (Verbosity.set_as_global v initState)
          = decide (v = .Verbose))
    ∧ (∀ s : RegState,
        Verbosity.is_terse s = decide (Verbosity.level s ≠ .Quite)
        ∧ Verbosity.is_verbose s = decide (Verbosity.level s = .Verbose)) := by
  constructor
  · intro v
    cases v <;> exact ⟨by decide, by decide⟩
  · intro s
    exact ⟨rfl, rfl⟩

/-- C6: the derived ordering is by discriminant, `Quite(0) < Terse(1) <
Verbose(2)`, and the strict comparison is trichotomous, transitive and
irreflexive — a strict total order on the three variants. -/
theorem verbosity_total_order :
    Verbosity.lt .Quite .Terse = true
    ∧ Verbosity.lt .Terse .Verbose = true
    ∧ Verbosity.discriminant .Quite = 0
    ∧ Verbosity.discriminant .Terse = 1
    ∧ Verbosity.discriminant .Verbose = 2
    ∧ (∀ a b : Verbosity,
        Verbosity.lt a b = true ∨ a = b ∨ Verbosity.lt b a = true)
    ∧ (∀ a b c : Verbosity,
        Verbosity.lt a b = true → Verbosity.lt b c = true →
          Verbosity.lt a c = true)
    ∧ (∀ a : Verbosity, Verbosity.lt a a = false)
    ∧ (∀ a b : Verbosity,
        Verbosity.le a b = true ∨ Verbosity.le b a = true) := by
  refine ⟨by decide, by decide, rfl, rfl, rfl, ?_, ?_, ?_, ?_⟩
  · intro a b; cases a <;> cases b <;> decide
  · intro a b c; cases a <;> cases b <;> cases c <;> decide
  · intro a; cases a <;> decide
  · intro a b; cases a <;> cases b <;> decide

/-- Witness for C6: transitivity applied at `Quite < Terse` and
`Terse < Verbose` yields `Quite < Verbose`. -/
theorem verbosity_total_order_witness :
    Verbosity.lt .Quite .Verbose = true :=
  verbosity_total_order.2.2.2.2.2.2.1 .Quite .Terse .Verbose (by decide) (by decide)

/-- C7: only `parse` can fail.  `level` and the predicates are total Lean
functions of the state (they are defined for every state and yield a plain
value), and a `set_as_global` call finding the latch set is a silent no-op:
it returns the state unchanged rather than an error. -/
theorem only_parse_fails :
    (∀ s : RegState, ∃ v : Verbosity, Verbosity.level s = v)
    ∧ (∀ w : Verbosity, ∀ s : RegState, s.reportingSet = true →
        Verbosity.set_as_global w s = s)
    ∧ (∀ a w : Verbosity,
        Verbosity.set_as_global w (Verbosity.set_as_global a initState)
          = Verbosity.set_as_global a initState) := by
  refine ⟨fun s => ⟨Verbosity.level s, rfl⟩, ?_, ?_⟩
  · intro w s h
    exact Verbosity.set_as_global_latched w s h
  · intro a w
    exact Verbosity.set_as_global_latched w _
      (Verbosity.reportingSet_after_set a initState)

/-- Witness for C7: on a state whose latch is set, a `set_as_global` call
with `Quite` leaves the state exactly as it was. -/
theorem only_parse_fails_witness :
    Verbosity.set_as_global .Quite
        { reporting := .Terse, reportingSet := true }
      = { reporting := .Terse, reportingSet := true } :=
  only_parse_fails.2.1 .Quite { reporting := .Terse, reportingSet := true } rfl

/-- C9: the code's fourth predicate `is_quite()` holds exactly when the
stored level is `Quite`, and it is everywhere the negation of `is_terse()`. -/
theorem is_quite_spec :
    ∀ s : RegState,
      Verbosity.is_quite s = decide (Verbosity.level s = .Quite)
      ∧ Verbosity.is_quite s = !Verbosity.is_terse s := by
  intro s
  refine ⟨rfl, ?_⟩
  unfold Verbosity.is_quite Verbosity.is_terse
  cases h : decide (s.reporting = Verbosity.Quite) <;> simp_all

/-- C10: the test backdoor writes only the level and leaves the latch alone;
hence if the latch was still unset, a later genuine `set_as_global w` still
wins and overwrites the backdoor's value with `w`. -/
theorem backdoor_frame :
    ∀ (v w : Verbosity) (s : RegState),
      (Verbosity.set_as_global_for_test v s).reportingSet = s.reportingSet
      ∧ (Verbosity.set_as_global_for_test v s).reporting = v
      ∧ (s.reportingSet = false →
          Verbosity.level
            (Verbosity.set_as_global w (Verbosity.set_as_global_for_test v s))
            = w) := by
  intro v w s
  refine ⟨rfl, rfl, ?_⟩
  intro h
  unfold Verbosity.set_as_global_for_test Verbosity.set_as_global
  simp [h, Verbosity.level]

/-- Witness for C10 at `v = Terse`, `w = Verbose` on the fresh registry. -/
theorem backdoor_frame_witness :
    (Verbosity.set_as_global_for_test .Terse initState).reportingSet
        = initState.reportingSet
    ∧ Verbosity.level
        (Verbosity.set_as_global .Verbose
          (Verbosity.set_as_global_for_test .Terse initState)) = .Verbose := by
  have h := backdoor_frame .Terse .Verbose initState
  exact ⟨h.1, h.2.2 rfl⟩

/-- Setting an index of a list to the element it already holds is the
identity. -/
theorem list_set_self {α : Type} (l : List α) (i : Nat) (a : α)
    (h : l[i]? = some a) : l.set i a = l := by
  induction l generalizing i with
  | nil => simp at h
  | cons x xs ih =>
      cases i with
      | zero =>
          simp only [List.getElem?_cons_zero, Option.some.injEq] at h
          simp [h]
      | succ n =>
          simp only [List.getElem?_cons_succ] at h
          simp [List.set, ih n h]

/-- Replacing a thread by one with the same `value` field preserves the list
of arguments. -/
theorem map_value_set (l : List ThreadState) (i : Nat) (t t2 : ThreadState)
    (hg : l[i]? = some t) (hv : t2.value = t.value) :
    (l.set i t2).map ThreadState.value = l.map ThreadState.value := by
  rw [List.map_set, hv]
  exact list_set_self _ _ _ (by rw [List.getElem?_map, hg]; rfl)

/-- The race invariant holds of the fresh configuration. -/
theorem raceInv_init (vs : List Verbosity) : RaceInv vs (initConfig vs) := by
  refine ⟨?_, Or.inl ⟨rfl, rfl, ?_⟩⟩
  · simp only [initConfig, List.map_map]
    induction vs with
    | nil => rfl
    | cons v rest ih =>
        simp only [List.map_cons, List.cons.injEq]
        exact ⟨rfl, ih⟩
  · intro t ht
    simp only [initConfig, List.mem_map] at ht
    obtain ⟨v, _, hv⟩ := ht
    rw [← hv]
    exact ⟨rfl, rfl⟩

/-- The race invariant is preserved by every atomic action of every
thread. -/
theorem raceInv_step (vs : List Verbosity) (c : RaceConfig) (i : Nat)
    (hInv : RaceInv vs c) : RaceInv vs (stepConfig c i) := by
  obtain ⟨hmap, hcase⟩ := hInv
  cases hg : c.threads[i]? with
  | none =>
      simp only [stepConfig, hg]
      exact ⟨hmap, hcase⟩
  | some t =>
    have hi : i < c.threads.length := (List.getElem?_eq_some_iff.mp hg).1
    rcases hcase with ⟨hset, hrep, hall⟩ | ⟨hset, k, tw, hk, hwon, hothers, hwstate⟩
    · -- Nothing has happened yet: thread `i` performs the winning CAS.
      obtain ⟨hpc, hwonF⟩ := hall t (List.getElem?_mem hg)
      have hstep : stepConfig c i =
          { global := { c.global with reportingSet := true },
            threads := c.threads.set i { t with pc := 1, won := true } } := by
        simp [stepConfig, hg, stepThread, hpc, hset]
      rw [hstep]
      refine ⟨(map_value_set c.threads i t { t with pc := 1, won := true }
          hg rfl).trans hmap,
        Or.inr ⟨rfl, i, { t with pc := 1, won := true },
          List.getElem?_set_self hi, rfl, ?_, Or.inl ⟨rfl, hrep⟩⟩⟩
      intro j u hj hji
      rw [List.getElem?_set_ne (Ne.symm hji)] at hj
      exact (hall u (List.getElem?_mem hj)).2
    · by_cases hik : i = k
      · -- The winner takes its next action.
        subst hik
        have htw : t = tw := by rw [hg] at hk; exact Option.some.inj hk
        subst htw
        rcases hwstate with ⟨hpc, hrepQ⟩ | ⟨hpc, hrepV⟩
        · -- The winner performs its guarded write.
          have hstep : stepConfig c i =
              { global := { c.global with reporting := t.value },
                threads := c.threads.set i { t with pc := 2 } } := by
            simp [stepConfig, hg, stepThread, hpc, hwon]
          rw [hstep]
          refine ⟨(map_value_set c.threads i t { t with pc := 2 }
              hg rfl).trans hmap,
            Or.inr ⟨hset, i, { t with pc := 2 },
              List.getElem?_set_self hi, hwon, ?_, Or.inr ⟨rfl, rfl⟩⟩⟩
          intro j u hj hji
          rw [List.getElem?_set_ne (Ne.symm hji)] at hj
          exact hothers j u hj hji
        · -- The winner is already done: the step is a no-op.
          have hstep : stepConfig c i = c := by
            simp [stepConfig, hg, stepThread, hpc, list_set_self _ _ _ hg]
          rw [hstep]
          exact ⟨hmap, Or.inr ⟨hset, i, t, hg, hwon, hothers, Or.inr ⟨hpc, hrepV⟩⟩⟩
      · -- A losing thread takes its next action.
        have hwonT : t.won = false := hothers i t hg hik
        by_cases hpc0 : t.pc = 0
        · -- Its CAS finds the latch set, so it loses.
          have hstep : stepConfig c i =
              { global := { c.global with reportingSet := true },
                threads := c.threads.set i { t with pc := 1, won := false } } := by
            simp [stepConfig, hg, stepThread, hpc0, hset]
          rw [hstep]
          refine ⟨(map_value_set c.threads i t { t with pc := 1, won := false }
              hg rfl).trans hmap,
            Or.inr ⟨rfl, k, tw, ?_, hwon, ?_, ?_⟩⟩
          · rw [List.getElem?_set_ne hik]
            exact hk
          · intro j u hj hjk
            by_cases hji : j = i
            · subst hji
              rw [List.getElem?_set_self hi] at hj
              have h2 := Option.some.inj hj
              rw [← h2]
            · rw [List.getElem?_set_ne (Ne.symm hji)] at hj
              exact hothers j u hj hjk
          · rcases hwstate with ⟨h1, h2⟩ | ⟨h1, h2⟩
            · exact Or.inl ⟨h1, h2⟩
            · exact Or.inr ⟨h1, h2⟩
        · by_cases hpc1 : t.pc = 1
          · -- It lost the CAS, so it skips the write.
            have hstep : stepConfig c i =
                { global := c.global, threads := c.threads.set i { t with pc := 2 } } := by
              simp [stepConfig, hg, stepThread, hpc0, hpc1, hwonT]
            rw [hstep]
            refine ⟨(map_value_set c.threads i t { t with pc := 2 }
                hg rfl).trans hmap,
              Or.inr ⟨hset, k, tw, ?_, hwon, ?_, hwstate⟩⟩
            · rw [List.getElem?_set_ne hik]
              exact hk
            · intro j u hj hjk
              by_cases hji : j = i
              · subst hji
                rw [List.getElem?_set_self hi] at hj
                have h2 := Option.some.inj hj
                rw [← h2]
                exact hwonT
              · rw [List.getElem?_set_ne (Ne.symm hji)] at hj
                exact hothers j u hj hjk
          · -- It is already done: the step is a no-op.
            have hstep : stepConfig c i = c := by
              simp [stepConfig, hg, stepThread, hpc0, hpc1, list_set_self _ _ _ hg]
            rw [hstep]
            exact ⟨hmap, Or.inr ⟨hset, k, tw, hk, hwon, hothers, hwstate⟩⟩

/-- The race invariant holds after any schedule. -/
theorem raceInv_run (vs : List Verbosity) (c : RaceConfig) (sched : List Nat)
    (h : RaceInv vs c) : RaceInv vs (runSched c sched) := by
  induction sched generalizing c with
  | nil => exact h
  | cons i rest ih => exact ih _ (raceInv_step vs c i h)

/-- C8: concurrent first-set race.  For any nonempty list of levels, one
thread per level, and any complete interleaving of the threads' atomic
actions (every thread finishes), exactly one thread won the
compare-and-set on the latch, the stored level is that thread's value (one
of the requested levels), every subsequent `level()` read returns it, the
latch ends up set, and any further `set_as_global` call leaves it
unchanged. -/
theorem set_as_global_race (vs : List Verbosity) (sched : List Nat)
    (hne : vs ≠ [])
    (hdone : ∀ t ∈ (runSched (initConfig vs) sched).threads, t.pc = 2) :
    ∃ (i : Nat) (t : ThreadState),
      (runSched (initConfig vs) sched).threads[i]? = some t
      ∧ t.won = true
      ∧ (∀ (j : Nat) (u : ThreadState),
            (runSched (initConfig vs) sched).threads[j]? = some u →
            u.won = true → j = i ∧ u = t)
      ∧ t.value ∈ vs
      ∧ Verbosity.level (runSched (initConfig vs) sched).global = t.value
      ∧ (runSched (initConfig vs) sched).global.reportingSet = true
      ∧ (∀ w : Verbosity,
          Verbosity.level
            (Verbosity.set_as_global w (runSched (initConfig vs) sched).global)
            = t.value) := by
  obtain ⟨hmap, hcase⟩ := raceInv_run vs (initConfig vs) sched (raceInv_init vs)
  rcases hcase with ⟨hset, hrep, hall⟩ | ⟨hset, k, tw, hk, hwon, hothers, hwstate⟩
  · -- Impossible: with `vs` nonempty some thread exists, and it cannot be
    -- both done and still at its first action.
    exfalso
    cases hth : (runSched (initConfig vs) sched).threads with
    | nil =>
        rw [hth] at hmap
        exact hne hmap.symm
    | cons t0 ts =>
        have h0 := hall t0 (by rw [hth]; exact List.mem_cons_self _ _)
        have h2 := hdone t0 (by rw [hth]; exact List.mem_cons_self _ _)
        rw [h0.1] at h2
        exact absurd h2 (by decide)
  · have htw2 : tw.pc = 2 := hdone tw (List.getElem?_mem hk)
    have hrepV : (runSched (initConfig vs) sched).global.reporting = tw.value := by
      rcases hwstate with ⟨h1, _⟩ | ⟨_, h2⟩
      · rw [htw2] at h1
        exact absurd h1 (by decide)
      · exact h2
    refine ⟨k, tw, hk, hwon, ?_, ?_, hrepV, hset, ?_⟩
    · intro j u hj hu
      by_cases hjk : j = k
      · subst hjk
        rw [hj] at hk
        exact ⟨rfl, Option.some.inj hk⟩
      · exfalso
        rw [hothers j u hj hjk] at hu
        exact Bool.false_ne_true hu
    · rw [← hmap]
      exact List.mem_map_of_mem _ (List.getElem?_mem hk)
    · intro w
      rw [Verbosity.set_as_global_latched w _ hset]
      exact hrepV

/-- Witness for C8: two threads, `Verbose` and `Terse`, fully interleaved
(CAS, CAS, write, skipped write); thread 0 wins and the stored level is
`Verbose`. -/
theorem set_as_global_race_witness :
    ∃ (i : Nat) (t : ThreadState),
      (runSched (initConfig [Verbosity.Verbose, Verbosity.Terse])
          [0, 1, 0, 1]).threads[i]? = some t
      ∧ t.won = true
      ∧ (∀ (j : Nat) (u : ThreadState),
          (runSched (initConfig [Verbosity.Verbose, Verbosity.Terse])
              [0, 1, 0, 1]).threads[j]? = some u →
            u.won = true → j = i ∧ u = t)
      ∧ t.value ∈ [Verbosity.Verbose, Verbosity.Terse]
      ∧ Verbosity.level
          (runSched (initConfig [Verbosity.Verbose, Verbosity.Terse])
              [0, 1, 0, 1]).global = t.value
      ∧ (runSched (initConfig [Verbosity.Verbose, Verbosity.Terse])
            [0, 1, 0, 1]).global.reportingSet = true
      ∧ (∀ w : Verbosity,
          Verbosity.level
            (Verbosity.set_as_global w
              (runSched (initConfig [Verbosity.Verbose, Verbosity.Terse])
                  [0, 1, 0, 1]).global) = t.value) :=
  set_as_global_race [Verbosity.Verbose, Verbosity.Terse] [0, 1, 0, 1]
    (by decide) (by decide)
